import Mathlib

/-!
Shallow embedding of the CHIP-8 virtual machine core (Go package `chip8`).

Machine integers are embedded as `Nat` with explicit masking: `uint8` values
are read through `% 256`, `uint16` values through `% 65536`.  Go's fixed-size
arrays (`Memory [4096]uint8`, `V [16]uint8`, `Stack [16]uint16`,
`Display [2048]uint8`, `Keys [16]bool`) are embedded as total functions; every
access the Go runtime would bounds-check is guarded explicitly, and an index
the Go runtime would reject produces the `crash` outcome (a Go panic).
Fallible operations return `Res` (ok / error / crash) or `Option`/`Except`.
The random byte consumed by opcode CXNN is passed in as an explicit argument.
-/

namespace Chip8

def MemorySize : Nat := 4096
def NumRegisters : Nat := 16
def StackSize : Nat := 16
def DisplayWidth : Nat := 64
def DisplayHeight : Nat := 32
def NumKeys : Nat := 16
def ProgramStart : Nat := 0x200

/-- State of the virtual machine (struct `CHIP8` in the source). -/
structure CHIP8 where
  Memory : Nat → Nat
  V : Nat → Nat
  I : Nat
  PC : Nat
  Stack : Nat → Nat
  SP : Nat
  DelayTimer : Nat
  SoundTimer : Nat
  Display : Nat → Nat
  Keys : Nat → Bool
  DrawFlag : Bool
  WaitingForKey : Bool
  KeyRegister : Nat

/-- Pointwise array update. -/
def upd (f : Nat → Nat) (i v : Nat) : Nat → Nat := fun j => if j = i then v else f j

/-- Pointwise array update, boolean values. -/
def updB (f : Nat → Bool) (i : Nat) (v : Bool) : Nat → Bool :=
  fun j => if j = i then v else f j

/-- `uint8` view of a memory cell. -/
def mem8 (s : CHIP8) (i : Nat) : Nat := s.Memory i % 256

/-- `uint8` view of register `Vi`. -/
def v8 (s : CHIP8) (i : Nat) : Nat := s.V i % 256

/-- `uint16` view of the index register. -/
def i16 (s : CHIP8) : Nat := s.I % 65536

/-- `uint16` view of the program counter. -/
def pc16 (s : CHIP8) : Nat := s.PC % 65536

/-- `uint8` view of the stack pointer. -/
def sp8 (s : CHIP8) : Nat := s.SP % 256

/-- `uint16` view of a stack slot. -/
def st16 (s : CHIP8) (i : Nat) : Nat := s.Stack i % 65536

/-- `uint8` view of the delay timer. -/
def dt8 (s : CHIP8) : Nat := s.DelayTimer % 256

/-- `uint8` view of the sound timer. -/
def snd8 (s : CHIP8) : Nat := s.SoundTimer % 256

/-- Errors returned by the engine (`fmt.Errorf` sites in the source). -/
inductive Err where
  | stackUnderflow
  | stackOverflow
  | unknownOpcode (w : Nat)
  | romTooLarge (n : Nat)
deriving DecidableEq

/-- Outcome of executing one instruction: success, a returned error, or a
Go runtime panic (out-of-range array index). -/
inductive Res where
  | ok (s : CHIP8)
  | err (e : Err)
  | crash

/-- Bounds-checked memory read (`c.Memory[i]`, panics when `i ≥ 4096`). -/
def memRead (s : CHIP8) (i : Nat) : Option Nat :=
  if i < MemorySize then some (mem8 s i) else none

/-- Bounds-checked memory write (`c.Memory[i] = v`). -/
def memWrite (s : CHIP8) (i v : Nat) : Option CHIP8 :=
  if i < MemorySize then some { s with Memory := upd s.Memory i (v % 256) } else none

/-- The built-in font sprites (variable `Fontset` in the source). -/
def Fontset : List Nat :=
  [0xF0, 0x90, 0x90, 0x90, 0xF0,
   0x20, 0x60, 0x20, 0x20, 0x70,
   0xF0, 0x10, 0xF0, 0x80, 0xF0,
   0xF0, 0x10, 0xF0, 0x10, 0xF0,
   0x90, 0x90, 0xF0, 0x10, 0x10,
   0xF0, 0x80, 0xF0, 0x10, 0xF0,
   0xF0, 0x80, 0xF0, 0x90, 0xF0,
   0xF0, 0x10, 0x20, 0x40, 0x40,
   0xF0, 0x90, 0xF0, 0x90, 0xF0,
   0xF0, 0x90, 0xF0, 0x10, 0xF0,
   0xF0, 0x90, 0xF0, 0x90, 0x90,
   0xE0, 0x90, 0xE0, 0x90, 0xE0,
   0xF0, 0x80, 0x80, 0x80, 0xF0,
   0xE0, 0x90, 0x90, 0x90, 0xE0,
   0xF0, 0x80, 0xF0, 0x80, 0xF0,
   0xF0, 0x80, 0xF0, 0x80, 0x80]

/-- `Reset`: clears every array, resets scalar state, loads the fontset at
address 0.  The clear-loops followed by the fontset-loop produce exactly the
memory function below. -/
def Reset (_s : CHIP8) : CHIP8 :=
  { Memory := fun i => if i < 80 then Fontset.getD i 0 else 0
    V := fun _ => 0
    I := 0
    PC := ProgramStart
    Stack := fun _ => 0
    SP := 0
    DelayTimer := 0
    SoundTimer := 0
    Display := fun _ => 0
    Keys := fun _ => false
    DrawFlag := true
    WaitingForKey := false
    KeyRegister := 0 }

/-- `New`: a freshly constructed, reset machine. -/
def New : CHIP8 :=
  Reset
    { Memory := fun _ => 0, V := fun _ => 0, I := 0, PC := 0, Stack := fun _ => 0,
      SP := 0, DelayTimer := 0, SoundTimer := 0, Display := fun _ => 0,
      Keys := fun _ => false, DrawFlag := false, WaitingForKey := false, KeyRegister := 0 }

/-- The copy loop of `LoadROM`: `c.Memory[ProgramStart+i] = data[i]`. -/
def copyROM : List Nat → Nat → (Nat → Nat) → (Nat → Nat)
  | [], _, m => m
  | b :: rest, base, m => copyROM rest (base + 1) (upd m base (b % 256))

/-- `LoadROM`: rejects oversize data, otherwise copies it at 0x200. -/
def LoadROM (data : List Nat) (s : CHIP8) : Except Err CHIP8 :=
  if data.length > MemorySize - ProgramStart then
    .error (.romTooLarge data.length)
  else
    .ok { s with Memory := copyROM data ProgramStart s.Memory }

/-- `SetKey`: records key state and resolves a pending key-wait.  The write
`c.V[c.KeyRegister] = key` indexes the 16-entry register file with a `uint8`,
so a register index ≥ 16 would panic (`none`). -/
def SetKey (key : Nat) (pressed : Bool) (s : CHIP8) : Option CHIP8 :=
  if key % 256 < NumKeys then
    let s1 := { s with Keys := updB s.Keys (key % 256) pressed }
    if s1.WaitingForKey && pressed then
      if s1.KeyRegister % 256 < NumRegisters then
        some { s1 with V := upd s1.V (s1.KeyRegister % 256) (key % 256),
                       WaitingForKey := false }
      else none
    else some s1
  else some s

/-- `UpdateTimers`: each timer decrements when positive. -/
def UpdateTimers (s : CHIP8) : CHIP8 :=
  let s1 := if dt8 s > 0 then { s with DelayTimer := dt8 s - 1 } else s
  if snd8 s1 > 0 then { s1 with SoundTimer := snd8 s1 - 1 } else s1

/-- `ShouldBeep`: the sound timer is active. -/
def ShouldBeep (s : CHIP8) : Bool := snd8 s > 0

/-- The body acting on one target pixel: record a collision in VF when the
pixel is lit, then XOR it. -/
def drawPixel (idx : Nat) (s : CHIP8) : CHIP8 :=
  let s1 := if s.Display idx % 256 = 1 then { s with V := upd s.V 0xF 1 } else s
  { s1 with Display := upd s1.Display idx (s1.Display idx % 256 ^^^ 1) }

/-- Inner body of the draw loop for one column `col` of one sprite row:
test bit `0x80 >> col`, compute the wrapped target
`py * DisplayWidth + px`, and XOR that pixel. -/
def drawCol (x y row sprite col : Nat) (s : CHIP8) : CHIP8 :=
  if sprite &&& (128 >>> col) ≠ 0 then
    drawPixel ((v8 s y + row) % 256 % DisplayHeight * DisplayWidth +
      (v8 s x + col) % 256 % DisplayWidth) s
  else s

/-- One sprite row: the inner `for col` loop. -/
def drawRow (x y row sprite : Nat) : List Nat → CHIP8 → CHIP8
  | [], s => s
  | c :: rest, s => drawRow x y row sprite rest (drawCol x y row sprite c s)

/-- The outer `for row` loop of DXYN; reading `c.Memory[c.I+row]` can panic. -/
def drawRows (x y : Nat) : List Nat → CHIP8 → Option CHIP8
  | [], s => some s
  | rw :: rest, s =>
    match memRead s ((i16 s + rw) % 65536) with
    | none => none
    | some sprite => drawRows x y rest (drawRow x y rw sprite (List.range 8) s)

/-- FX55 store loop, `for i := 0; i <= x; i++`. -/
def storeRegsAux : List Nat → CHIP8 → Option CHIP8
  | [], s => some s
  | i :: rest, s =>
    match memWrite s ((i16 s + i) % 65536) (v8 s i) with
    | none => none
    | some s1 => storeRegsAux rest s1

/-- FX65 load loop. -/
def loadRegsAux : List Nat → CHIP8 → Option CHIP8
  | [], s => some s
  | i :: rest, s =>
    match memRead s ((i16 s + i) % 65536) with
    | none => none
    | some b => loadRegsAux rest { s with V := upd s.V i b }

/-- `executeOpcode`: decode the operand fields and dispatch, mirroring the
Go `switch opcode & 0xF000` (primary group) and inner switches. -/
def executeOpcode (r op : Nat) (s : CHIP8) : Res :=
  let x := op / 256 % 16
  let y := op / 16 % 16
  let n := op % 16
  let nn := op % 256
  let nnn := op % 4096
  let g := op / 4096 % 16
  if g = 0 then
    if op = 0x00E0 then
      .ok { s with Display := fun _ => 0, DrawFlag := true }
    else if op = 0x00EE then
      if sp8 s = 0 then .err .stackUnderflow
      else if sp8 s - 1 < StackSize then
        .ok { s with SP := sp8 s - 1, PC := st16 s (sp8 s - 1) }
      else .crash
    else .ok s
  else if g = 1 then
    .ok { s with PC := nnn }
  else if g = 2 then
    if sp8 s ≥ StackSize then .err .stackOverflow
    else .ok { s with Stack := upd s.Stack (sp8 s) (pc16 s),
                      SP := (sp8 s + 1) % 256, PC := nnn }
  else if g = 3 then
    .ok (if v8 s x = nn then { s with PC := (pc16 s + 2) % 65536 } else s)
  else if g = 4 then
    .ok (if v8 s x ≠ nn then { s with PC := (pc16 s + 2) % 65536 } else s)
  else if g = 5 then
    .ok (if v8 s x = v8 s y then { s with PC := (pc16 s + 2) % 65536 } else s)
  else if g = 6 then
    .ok { s with V := upd s.V x nn }
  else if g = 7 then
    .ok { s with V := upd s.V x ((v8 s x + nn) % 256) }
  else if g = 8 then
    if n = 0 then .ok { s with V := upd s.V x (v8 s y) }
    else if n = 1 then .ok { s with V := upd s.V x (v8 s x ||| v8 s y) }
    else if n = 2 then .ok { s with V := upd s.V x (v8 s x &&& v8 s y) }
    else if n = 3 then .ok { s with V := upd s.V x (v8 s x ^^^ v8 s y) }
    else if n = 4 then
      let sum := v8 s x + v8 s y
      let s1 := { s with V := upd s.V x (sum % 256) }
      .ok { s1 with V := upd s1.V 0xF (if sum > 255 then 1 else 0) }
    else if n = 5 then
      let s1 := { s with V := upd s.V 0xF (if v8 s x ≥ v8 s y then 1 else 0) }
      .ok { s1 with V := upd s1.V x ((v8 s1 x + 256 - v8 s1 y) % 256) }
    else if n = 6 then
      let s1 := { s with V := upd s.V 0xF (v8 s x &&& 1) }
      .ok { s1 with V := upd s1.V x (v8 s1 x / 2) }
    else if n = 7 then
      let s1 := { s with V := upd s.V 0xF (if v8 s y ≥ v8 s x then 1 else 0) }
      .ok { s1 with V := upd s1.V x ((v8 s1 y + 256 - v8 s1 x) % 256) }
    else if n = 14 then
      let s1 := { s with V := upd s.V 0xF ((v8 s x &&& 128) / 128) }
      .ok { s1 with V := upd s1.V x (v8 s1 x * 2 % 256) }
    else .err (.unknownOpcode op)
  else if g = 9 then
    .ok (if v8 s x ≠ v8 s y then { s with PC := (pc16 s + 2) % 65536 } else s)
  else if g = 10 then
    .ok { s with I := nnn }
  else if g = 11 then
    .ok { s with PC := (nnn + v8 s 0) % 65536 }
  else if g = 12 then
    .ok { s with V := upd s.V x (r % 256 &&& nn) }
  else if g = 13 then
    let s1 := { s with V := upd s.V 0xF 0 }
    match drawRows x y (List.range n) s1 with
    | none => .crash
    | some s2 => .ok { s2 with DrawFlag := true }
  else if g = 14 then
    if nn = 0x9E then
      if v8 s x < NumKeys then
        .ok (if s.Keys (v8 s x) then { s with PC := (pc16 s + 2) % 65536 } else s)
      else .crash
    else if nn = 0xA1 then
      if v8 s x < NumKeys then
        .ok (if s.Keys (v8 s x) then s else { s with PC := (pc16 s + 2) % 65536 })
      else .crash
    else .err (.unknownOpcode op)
  else if g = 15 then
    if nn = 0x07 then .ok { s with V := upd s.V x (dt8 s) }
    else if nn = 0x0A then .ok { s with WaitingForKey := true, KeyRegister := x }
    else if nn = 0x15 then .ok { s with DelayTimer := v8 s x }
    else if nn = 0x18 then .ok { s with SoundTimer := v8 s x }
    else if nn = 0x1E then .ok { s with I := (i16 s + v8 s x) % 65536 }
    else if nn = 0x29 then .ok { s with I := v8 s x * 5 }
    else if nn = 0x33 then
      match memWrite s (i16 s) (v8 s x / 100) with
      | none => .crash
      | some s1 =>
        match memWrite s1 ((i16 s1 + 1) % 65536) (v8 s1 x / 10 % 10) with
        | none => .crash
        | some s2 =>
          match memWrite s2 ((i16 s2 + 2) % 65536) (v8 s2 x % 10) with
          | none => .crash
          | some s3 => .ok s3
    else if nn = 0x55 then
      match storeRegsAux (List.range (x + 1)) s with
      | none => .crash
      | some s1 => .ok s1
    else if nn = 0x65 then
      match loadRegsAux (List.range (x + 1)) s with
      | none => .crash
      | some s1 => .ok s1
    else .err (.unknownOpcode op)
  else .err (.unknownOpcode op)

/-- `Cycle`: key-wait check, big-endian fetch (each byte read is
bounds-checked), PC advance, then execute. -/
def Cycle (r : Nat) (s : CHIP8) : Res :=
  if s.WaitingForKey then .ok s
  else
    match memRead s (pc16 s), memRead s ((pc16 s + 1) % 65536) with
    | some b0, some b1 =>
      executeOpcode r (b0 * 256 + b1) { s with PC := (pc16 s + 2) % 65536 }
    | _, _ => .crash

/-! Observation helpers on `Res`, used to state executable properties. -/

def Res.isOk : Res → Bool
  | .ok _ => true
  | _ => false

def Res.isCrash : Res → Bool
  | .crash => true
  | _ => false

def Res.errOf : Res → Option Err
  | .err e => some e
  | _ => none

def Res.vOf : Res → Nat → Option Nat
  | .ok s, i => some (v8 s i)
  | _, _ => none

def Res.memOf : Res → Nat → Option Nat
  | .ok s, i => some (mem8 s i)
  | _, _ => none

def Res.dispOf : Res → Nat → Option Nat
  | .ok s, i => some (s.Display i % 256)
  | _, _ => none

def Res.pcOf : Res → Option Nat
  | .ok s => some (pc16 s)
  | _ => none

def Res.iOf : Res → Option Nat
  | .ok s => some (i16 s)
  | _ => none

def Res.waitingOf : Res → Option Bool
  | .ok s => some s.WaitingForKey
  | _ => none

/-! ### Generic helper lemmas -/

theorem upd_self (f : Nat → Nat) (i v : Nat) : upd f i v i = v := by
  simp [upd]

theorem upd_ne (f : Nat → Nat) (i v j : Nat) (h : j ≠ i) : upd f i v j = f j := by
  simp [upd, h]

/-- A machine whose key-wait flag is raised, used to exercise the wait logic. -/
def waitState : CHIP8 :=
  { New with WaitingForKey := true, KeyRegister := 3 }

/-- `SetKey` on a pressed in-range key while waiting: it records the key and
resolves the wait. -/
theorem setKey_resolve (k : Nat) (s : CHIP8) (hk : k % 256 < 16)
    (hw : s.WaitingForKey = true) (hkr : s.KeyRegister % 256 < 16) :
    SetKey k true s =
      some { s with Keys := updB s.Keys (k % 256) true,
                    V := upd s.V (s.KeyRegister % 256) (k % 256),
                    WaitingForKey := false } := by
  rw [SetKey]
  simp only [NumKeys, NumRegisters]
  rw [if_pos hk]
  simp only [hw, Bool.true_and, if_pos rfl, hkr, if_true]

/-- `SetKey` on a released in-range key: it only records the key state. -/
theorem setKey_release (k : Nat) (s : CHIP8) (hk : k % 256 < 16) :
    SetKey k false s = some { s with Keys := updB s.Keys (k % 256) false } := by
  rw [SetKey]
  simp only [NumKeys]
  rw [if_pos hk]
  simp

/-- `SetKey` on an out-of-range key index is a silent no-op. -/
theorem setKey_oob (k : Nat) (p : Bool) (s : CHIP8) (hk : ¬ k % 256 < 16) :
    SetKey k p s = some s := by
  rw [SetKey]
  simp only [NumKeys]
  rw [if_neg hk]

/-- C5: while `WaitingForKey` holds, `Cycle` is a success no-op; `SetKey` with a
pressed in-range key resolves the wait into `V[KeyRegister]`; releasing a key
never resolves the wait; and an out-of-range key index changes nothing. -/
theorem c5_key_wait_semantics :
    (∀ (r : Nat) (s : CHIP8), s.WaitingForKey = true → Cycle r s = .ok s) ∧
    (∀ (k : Nat) (s : CHIP8), k < 16 → s.WaitingForKey = true →
      s.KeyRegister % 256 < 16 →
      ∃ s', SetKey k true s = some s' ∧ v8 s' (s.KeyRegister % 256) = k ∧
        s'.WaitingForKey = false) ∧
    (∀ (k : Nat) (s : CHIP8), ∃ s', SetKey k false s = some s' ∧
      s'.WaitingForKey = s.WaitingForKey ∧ s'.V = s.V) ∧
    (∀ (k : Nat) (p : Bool) (s : CHIP8), 16 ≤ k → k < 256 → SetKey k p s = some s) := by
  refine ⟨?_, ?_, ?_, ?_⟩
  · intro r s hw
    simp [Cycle, hw]
  · intro k s hk hw hkr
    have hk' : k % 256 = k := Nat.mod_eq_of_lt (by omega)
    refine ⟨_, setKey_resolve k s (by omega) hw hkr, ?_, rfl⟩
    simp [v8, upd, hk']
  · intro k s
    by_cases hk : k % 256 < 16
    · exact ⟨_, setKey_release k s hk, rfl, rfl⟩
    · exact ⟨s, setKey_oob k false s hk, rfl, rfl⟩
  · intro k p s h16 h256
    have hk' : k % 256 = k := Nat.mod_eq_of_lt h256
    exact setKey_oob k p s (by omega)

/-- C5 witness: the four parts of `c5_key_wait_semantics` at concrete inputs. -/
theorem c5_key_wait_semantics_witness :
    (Cycle 0 waitState = .ok waitState) ∧
    (∃ s', SetKey 10 true waitState = some s' ∧
      v8 s' (waitState.KeyRegister % 256) = 10 ∧ s'.WaitingForKey = false) ∧
    (∃ s', SetKey 5 false waitState = some s' ∧
      s'.WaitingForKey = waitState.WaitingForKey ∧ s'.V = waitState.V) ∧
    SetKey 200 true New = some New := by
  refine ⟨c5_key_wait_semantics.1 0 waitState (by decide),
    c5_key_wait_semantics.2.1 10 waitState (by decide) (by decide) (by decide),
    c5_key_wait_semantics.2.2.1 5 waitState,
    c5_key_wait_semantics.2.2.2 200 true New (by decide) (by decide)⟩

/-- What the `LoadROM` copy loop does to a single memory cell. -/
theorem copyROM_eq (data : List Nat) : ∀ (base : Nat) (m : Nat → Nat) (j : Nat),
    copyROM data base m j =
      if base ≤ j ∧ j < base + data.length then data.getD (j - base) 0 % 256 else m j := by
  induction data with
  | nil =>
    intro base m j
    rw [copyROM, if_neg (by simp only [List.length_nil]; omega)]
  | cons b rest ih =>
    intro base m j
    rw [copyROM, ih (base + 1) (upd m base (b % 256)) j]
    by_cases h1 : j = base
    · rw [if_neg (by omega),
        if_pos (show base ≤ j ∧ j < base + (b :: rest).length by
          simp only [List.length_cons]; omega)]
      rw [h1]
      simp [upd]
    · by_cases h2 : base + 1 ≤ j ∧ j < base + 1 + rest.length
      · rw [if_pos h2,
          if_pos (show base ≤ j ∧ j < base + (b :: rest).length by
            simp only [List.length_cons]; omega)]
        have hsub : j - base = (j - (base + 1)) + 1 := by omega
        rw [hsub, List.getD_cons_succ]
      · rw [if_neg h2,
          if_neg (show ¬(base ≤ j ∧ j < base + (b :: rest).length) by
            simp only [List.length_cons]; omega),
          upd_ne _ _ _ _ h1]

/-- C7: `loadProgram` fails with the oversize error exactly when the data does
not fit in `4096 - 0x200 = 3584` bytes (failure produces no new state); on
success the bytes land verbatim at 0x200 and everything else is untouched. -/
theorem c7_loadROM_characterization :
    ∀ (data : List Nat) (s : CHIP8),
      (LoadROM data s = .error (.romTooLarge data.length) ↔ 3584 < data.length) ∧
      (∀ e, LoadROM data s = .error e → e = .romTooLarge data.length) ∧
      (data.length ≤ 3584 →
        ∃ s', LoadROM data s = .ok s' ∧
          (∀ i, i < data.length → s'.Memory (ProgramStart + i) = data.getD i 0 % 256) ∧
          ((∀ b ∈ data, b < 256) → ∀ i, i < data.length →
            s'.Memory (ProgramStart + i) = data.getD i 0) ∧
          (∀ j, j < ProgramStart ∨ ProgramStart + data.length ≤ j →
            s'.Memory j = s.Memory j) ∧
          s'.V = s.V ∧ s'.I = s.I ∧ s'.PC = s.PC ∧ s'.Stack = s.Stack ∧ s'.SP = s.SP ∧
          s'.DelayTimer = s.DelayTimer ∧ s'.SoundTimer = s.SoundTimer ∧
          s'.Display = s.Display ∧ s'.Keys = s.Keys ∧ s'.DrawFlag = s.DrawFlag ∧
          s'.WaitingForKey = s.WaitingForKey ∧ s'.KeyRegister = s.KeyRegister) := by
  intro data s
  have hunf : LoadROM data s =
      if 3584 < data.length then .error (.romTooLarge data.length)
      else .ok { s with Memory := copyROM data ProgramStart s.Memory } := rfl
  by_cases hlen : 3584 < data.length
  · rw [hunf, if_pos hlen]
    refine ⟨⟨fun _ => hlen, fun _ => rfl⟩, ?_, fun hle => absurd hlen (by omega)⟩
    intro e he
    injection he with h
    exact h.symm
  · rw [hunf, if_neg hlen]
    refine ⟨⟨fun h => Except.noConfusion h, fun h => absurd h hlen⟩,
      fun e he => Except.noConfusion he,
      fun _ => ⟨_, rfl, ?_, ?_, ?_, rfl, rfl, rfl, rfl, rfl, rfl, rfl, rfl, rfl, rfl,
        rfl, rfl⟩⟩
    · intro i hi
      show copyROM data ProgramStart s.Memory (ProgramStart + i) = data.getD i 0 % 256
      rw [copyROM_eq]
      rw [if_pos (show ProgramStart ≤ ProgramStart + i ∧
        ProgramStart + i < ProgramStart + data.length by constructor <;> omega)]
      rw [show ProgramStart + i - ProgramStart = i by omega]
    · intro hb i hi
      show copyROM data ProgramStart s.Memory (ProgramStart + i) = data.getD i 0
      rw [copyROM_eq]
      rw [if_pos (show ProgramStart ≤ ProgramStart + i ∧
        ProgramStart + i < ProgramStart + data.length by constructor <;> omega)]
      rw [show ProgramStart + i - ProgramStart = i by omega,
        List.getD_eq_getElem data 0 hi]
      exact Nat.mod_eq_of_lt (hb _ (List.getElem_mem hi))
    · intro j hj
      show copyROM data ProgramStart s.Memory j = s.Memory j
      rw [copyROM_eq]
      rw [if_neg (show ¬(ProgramStart ≤ j ∧ j < ProgramStart + data.length) by
        rcases hj with h | h <;> omega)]

/-- C7 witness: an oversize load fails with the oversize error; a two-byte
load succeeds with the characterized state. -/
theorem c7_loadROM_characterization_witness :
    (LoadROM (List.replicate 3585 0) New =
      .error (.romTooLarge (List.replicate 3585 0).length)) ∧
    (∃ s', LoadROM [1, 2] New = .ok s' ∧
      (∀ i, i < [1, 2].length → s'.Memory (ProgramStart + i) = [1, 2].getD i 0 % 256) ∧
      ((∀ b ∈ [1, 2], b < 256) → ∀ i, i < [1, 2].length →
        s'.Memory (ProgramStart + i) = [1, 2].getD i 0) ∧
      (∀ j, j < ProgramStart ∨ ProgramStart + [1, 2].length ≤ j →
        s'.Memory j = New.Memory j) ∧
      s'.V = New.V ∧ s'.I = New.I ∧ s'.PC = New.PC ∧ s'.Stack = New.Stack ∧
      s'.SP = New.SP ∧ s'.DelayTimer = New.DelayTimer ∧
      s'.SoundTimer = New.SoundTimer ∧ s'.Display = New.Display ∧
      s'.Keys = New.Keys ∧ s'.DrawFlag = New.DrawFlag ∧
      s'.WaitingForKey = New.WaitingForKey ∧ s'.KeyRegister = New.KeyRegister) :=
  ⟨(c7_loadROM_characterization (List.replicate 3585 0) New).1.mpr
      (by rw [List.length_replicate]; omega),
    (c7_loadROM_characterization [1, 2] New).2.2 (by decide)⟩

/-- C8 counterexample: loading the program `1000` ("jump to 0x000") and
running one step drives PC to 0, below the program start; the machine is not
waiting, so the next fetch would occur at address 0 < 0x200. -/
theorem c8_counterexample :
    ∃ t, LoadROM [0x10, 0x00] New = .ok t ∧
      (Cycle 0 t).pcOf = some 0 ∧ (Cycle 0 t).waitingOf = some false ∧
      0 < ProgramStart := by
  refine ⟨_, rfl, ?_, ?_, by decide⟩ <;> decide

/-- C8 amended: the program counter is initialized to 0x200 by `Reset` and is
not moved by `LoadROM`, but no lower bound is enforced afterwards: a jump can
place PC below 0x200 (see the counterexample). -/
theorem c8_pc_reset_init :
    (∀ s : CHIP8, (Reset s).PC = ProgramStart ∧ pc16 (Reset s) = ProgramStart) ∧
    (∀ (data : List Nat) (s s' : CHIP8), LoadROM data s = .ok s' → s'.PC = s.PC) := by
  constructor
  · intro s
    exact ⟨rfl, rfl⟩
  · intro data s s' h
    rw [LoadROM] at h
    by_cases hl : data.length > MemorySize - ProgramStart
    · rw [if_pos hl] at h
      cases h
    · rw [if_neg hl] at h
      cases h
      rfl

/-- C8 witness: `c8_pc_reset_init` applied to a fresh machine and a concrete
two-byte load. -/
theorem c8_pc_reset_init_witness :
    (Reset New).PC = ProgramStart ∧
    ({ New with Memory := copyROM [1, 2] ProgramStart New.Memory } : CHIP8).PC =
      New.PC :=
  ⟨(c8_pc_reset_init.1 New).1, c8_pc_reset_init.2 [1, 2] New _ rfl⟩

/-- The FX55 store loop never touches `I`, the registers, PC or SP. -/
theorem storeRegsAux_frame : ∀ (l : List Nat) (s t : CHIP8),
    storeRegsAux l s = some t →
    t.I = s.I ∧ t.V = s.V ∧ t.PC = s.PC ∧ t.SP = s.SP := by
  intro l
  induction l with
  | nil =>
    intro s t h
    cases h
    exact ⟨rfl, rfl, rfl, rfl⟩
  | cons i rest ih =>
    intro s t h
    rw [storeRegsAux] at h
    cases hm : memWrite s ((i16 s + i) % 65536) (v8 s i) with
    | none => rw [hm] at h; cases h
    | some s1 =>
      rw [hm] at h
      have hrec := ih s1 t h
      rw [memWrite] at hm
      by_cases hb : (i16 s + i) % 65536 < MemorySize
      · rw [if_pos hb] at hm
        cases hm
        exact hrec
      · rw [if_neg hb] at hm
        cases hm

/-- The FX65 load loop never touches `I`, the memory, PC or SP. -/
theorem loadRegsAux_frame : ∀ (l : List Nat) (s t : CHIP8),
    loadRegsAux l s = some t →
    t.I = s.I ∧ t.Memory = s.Memory ∧ t.PC = s.PC ∧ t.SP = s.SP := by
  intro l
  induction l with
  | nil =>
    intro s t h
    cases h
    exact ⟨rfl, rfl, rfl, rfl⟩
  | cons i rest ih =>
    intro s t h
    rw [loadRegsAux] at h
    cases hm : memRead s ((i16 s + i) % 65536) with
    | none => rw [hm] at h; cases h
    | some b =>
      rw [hm] at h
      exact ih { s with V := upd s.V i b } t h

/-- C9: FX55 and FX65 leave the index register `I` unchanged (no classic
post-increment); FX55 additionally leaves every register unchanged and FX65
leaves all of memory unchanged. -/
theorem c9_store_load_frame :
    ∀ (r x : Nat) (s : CHIP8), x < 16 →
      ((executeOpcode r (0xF055 + x * 256) s).isOk = true →
        (executeOpcode r (0xF055 + x * 256) s).iOf = some (i16 s) ∧
        ∀ i, (executeOpcode r (0xF055 + x * 256) s).vOf i = some (v8 s i)) ∧
      ((executeOpcode r (0xF065 + x * 256) s).isOk = true →
        (executeOpcode r (0xF065 + x * 256) s).iOf = some (i16 s) ∧
        ∀ a, (executeOpcode r (0xF065 + x * 256) s).memOf a = some (mem8 s a)) := by
  intro r x s hx
  constructor
  · have hg : (61525 + x * 256) / 4096 % 16 = 15 := by omega
    have hnn : (61525 + x * 256) % 256 = 85 := by omega
    have hx' : (61525 + x * 256) / 256 % 16 = x := by omega
    intro hok
    rw [executeOpcode] at hok ⊢
    simp only [hg, hnn, hx'] at hok ⊢
    norm_num at hok ⊢
    cases hsr : storeRegsAux (List.range (x + 1)) s with
    | none =>
      rw [hsr] at hok
      exact Bool.noConfusion hok
    | some s1 =>
      have hfr := storeRegsAux_frame _ _ _ hsr
      constructor
      · show some (i16 s1) = some (i16 s)
        rw [i16, i16, hfr.1]
      · intro i
        show some (v8 s1 i) = some (v8 s i)
        rw [v8, v8, hfr.2.1]
  · have hg : (61541 + x * 256) / 4096 % 16 = 15 := by omega
    have hnn : (61541 + x * 256) % 256 = 101 := by omega
    have hx' : (61541 + x * 256) / 256 % 16 = x := by omega
    intro hok
    rw [executeOpcode] at hok ⊢
    simp only [hg, hnn, hx'] at hok ⊢
    norm_num at hok ⊢
    cases hsr : loadRegsAux (List.range (x + 1)) s with
    | none =>
      rw [hsr] at hok
      exact Bool.noConfusion hok
    | some s1 =>
      have hfr := loadRegsAux_frame _ _ _ hsr
      constructor
      · show some (i16 s1) = some (i16 s)
        rw [i16, i16, hfr.1]
      · intro a
        show some (mem8 s1 a) = some (mem8 s a)
        rw [mem8, mem8, hfr.2.1]

/-- C9 witness: `c9_store_load_frame` at a fresh machine storing and loading
V0..V1 at I = 0 (both accesses in bounds, so the step succeeds). -/
theorem c9_store_load_frame_witness :
    ((executeOpcode 0 (0xF055 + 1 * 256) New).iOf = some (i16 New) ∧
      ∀ i, (executeOpcode 0 (0xF055 + 1 * 256) New).vOf i = some (v8 New i)) ∧
    ((executeOpcode 0 (0xF065 + 1 * 256) New).iOf = some (i16 New) ∧
      ∀ a, (executeOpcode 0 (0xF065 + 1 * 256) New).memOf a = some (mem8 New a)) :=
  ⟨(c9_store_load_frame 0 1 New (by decide)).1 (by decide),
    (c9_store_load_frame 0 1 New (by decide)).2 (by decide)⟩

/-- A driver action that is not a `SetKey` call: one `Cycle` (with its random
byte) or one `UpdateTimers` tick. -/
inductive StepOp where
  | cyc (r : Nat)
  | timers

/-- Apply one driver action; a non-`ok` `Cycle` outcome leaves no new state. -/
def stepOp : StepOp → CHIP8 → CHIP8
  | .cyc r, s =>
    match Cycle r s with
    | .ok t => t
    | _ => s
  | .timers, s => UpdateTimers s

/-- Apply a sequence of driver actions. -/
def runOps : List StepOp → CHIP8 → CHIP8
  | [], s => s
  | o :: rest, s => runOps rest (stepOp o s)

/-- C10: FX0A raises `WaitingForKey` and records the target register without
inspecting the key state (the result is the same for every key configuration);
no sequence of `Cycle`/`UpdateTimers` calls ever clears the flag; and a
`SetKey` call clears it only when `pressed` is true and the index is in range. -/
theorem c10_keywait_persistence :
    (∀ (r x : Nat) (s : CHIP8), x < 16 →
      executeOpcode r (0xF00A + x * 256) s =
        .ok { s with WaitingForKey := true, KeyRegister := x }) ∧
    (∀ (ops : List StepOp) (s : CHIP8), s.WaitingForKey = true →
      (runOps ops s).WaitingForKey = true) ∧
    (∀ (k : Nat) (p : Bool) (s s' : CHIP8), s.WaitingForKey = true →
      SetKey k p s = some s' → s'.WaitingForKey = false →
      p = true ∧ k % 256 < 16) := by
  refine ⟨?_, ?_, ?_⟩
  · intro r x s hx
    have hg : (61450 + x * 256) / 4096 % 16 = 15 := by omega
    have hnn : (61450 + x * 256) % 256 = 10 := by omega
    have hx' : (61450 + x * 256) / 256 % 16 = x := by omega
    rw [executeOpcode]
    simp only [hg, hnn, hx']
    norm_num
  · intro ops
    induction ops with
    | nil =>
      intro s hw
      exact hw
    | cons o rest ih =>
      intro s hw
      rw [runOps]
      apply ih
      cases o with
      | cyc r =>
        show (stepOp (.cyc r) s).WaitingForKey = true
        rw [stepOp, c5_key_wait_semantics.1 r s hw]
        exact hw
      | timers =>
        show (UpdateTimers s).WaitingForKey = true
        rw [UpdateTimers]
        split <;> split <;> exact hw
  · intro k p s s' hw hsk hcleared
    by_cases hk : k % 256 < 16
    · cases p with
      | false =>
        rw [setKey_release k s hk] at hsk
        cases hsk
        rw [hw] at hcleared
        cases hcleared
      | true => exact ⟨rfl, hk⟩
    · rw [setKey_oob k p s hk] at hsk
      cases hsk
      rw [hw] at hcleared
      cases hcleared

/-- C10 witness: `c10_keywait_persistence` at concrete inputs: FX0A on a fresh
machine, a cycle-then-tick sequence on a waiting machine, and a concrete
resolving `SetKey`. -/
theorem c10_keywait_persistence_witness :
    (executeOpcode 0 (0xF00A + 3 * 256) New =
      .ok { New with WaitingForKey := true, KeyRegister := 3 }) ∧
    (runOps [.cyc 0, .timers] waitState).WaitingForKey = true ∧
    (true = true ∧ 5 % 256 < 16) :=
  ⟨c10_keywait_persistence.1 0 3 New (by decide),
    c10_keywait_persistence.2.1 [.cyc 0, .timers] waitState (by decide),
    c10_keywait_persistence.2.2 5 true waitState
      { waitState with Keys := updB waitState.Keys 5 true,
                       V := upd waitState.V 3 5, WaitingForKey := false }
      (by decide) (setKey_resolve 5 waitState (by decide) rfl (by decide)) rfl⟩

/-- C1 counterexample: with V[F] = 5 and V[1] = 3, executing 8F15 (subtract
V1 from VF).  If the no-borrow flag (here 1) were written to VF only after the
primary subtraction was computed from the pre-flag contents, VF would end at
the flag value 1 (or at the pre-flag difference 2 before the flag overwrote
it); the code writes the flag first and then subtracts from it, leaving 254. -/
theorem c1_counterexample :
    (executeOpcode 0 0x8F15 { New with V := upd (upd New.V 15 5) 1 3 }).vOf 15 =
      some 254 ∧ (254 : Nat) ≠ 1 ∧ (254 : Nat) ≠ 2 := by
  refine ⟨by decide, by decide, by decide⟩

/-- C1 amended: 8XY4 writes its carry flag after the primary sum, so with
x = F the flag survives as the final VF; but 8XY5, 8XY6, 8XY7 and 8XYE write
the flag to VF before computing the primary result, so with x = F the primary
result is computed from the just-written flag f, leaving VF equal to
(f + 256 - Vy) % 256, 0, (Vy + 256 - f) % 256 and 2*f respectively, not to
the flag of the pre-flag register contents. -/
theorem c1_flag_write_order :
    ∀ (r y : Nat) (s : CHIP8), y < 16 → y ≠ 15 →
      ((executeOpcode r (0x8F04 + y * 16) s).vOf 15 =
        some (if v8 s 15 + v8 s y > 255 then 1 else 0)) ∧
      ((executeOpcode r (0x8F05 + y * 16) s).vOf 15 =
        some (((if v8 s 15 ≥ v8 s y then 1 else 0) + 256 - v8 s y) % 256)) ∧
      ((executeOpcode r (0x8F06 + y * 16) s).vOf 15 = some 0) ∧
      ((executeOpcode r (0x8F07 + y * 16) s).vOf 15 =
        some ((v8 s y + 256 - (if v8 s y ≥ v8 s 15 then 1 else 0)) % 256)) ∧
      ((executeOpcode r (0x8F0E + y * 16) s).vOf 15 =
        some (2 * ((v8 s 15 &&& 128) / 128))) := by
  intro r y s hy hy15
  have hvy : v8 s y < 256 := Nat.mod_lt _ (by omega)
  have hv15 : v8 s 15 < 256 := Nat.mod_lt _ (by omega)
  refine ⟨?_, ?_, ?_, ?_, ?_⟩
  · have hg : (0x8F04 + y * 16) / 4096 % 16 = 8 := by omega
    have hn : (0x8F04 + y * 16) % 16 = 4 := by omega
    have hx : (0x8F04 + y * 16) / 256 % 16 = 15 := by omega
    have hyy : (0x8F04 + y * 16) / 16 % 16 = y := by omega
    rw [executeOpcode]
    simp only [hg, hn, hx, hyy]
    norm_num [Res.vOf, v8, upd, hy15]
    split <;> simp
  · have hg : (0x8F05 + y * 16) / 4096 % 16 = 8 := by omega
    have hn : (0x8F05 + y * 16) % 16 = 5 := by omega
    have hx : (0x8F05 + y * 16) / 256 % 16 = 15 := by omega
    have hyy : (0x8F05 + y * 16) / 16 % 16 = y := by omega
    rw [executeOpcode]
    simp only [hg, hn, hx, hyy]
    norm_num [Res.vOf, v8, upd, hy15]
    split <;> omega
  · have hg : (0x8F06 + y * 16) / 4096 % 16 = 8 := by omega
    have hn : (0x8F06 + y * 16) % 16 = 6 := by omega
    have hx : (0x8F06 + y * 16) / 256 % 16 = 15 := by omega
    rw [executeOpcode]
    simp only [hg, hn, hx]
    norm_num [Res.vOf, v8, upd]
    omega
  · have hg : (0x8F07 + y * 16) / 4096 % 16 = 8 := by omega
    have hn : (0x8F07 + y * 16) % 16 = 7 := by omega
    have hx : (0x8F07 + y * 16) / 256 % 16 = 15 := by omega
    have hyy : (0x8F07 + y * 16) / 16 % 16 = y := by omega
    rw [executeOpcode]
    simp only [hg, hn, hx, hyy]
    norm_num [Res.vOf, v8, upd, hy15]
    split <;> omega
  · have hg : (0x8F0E + y * 16) / 4096 % 16 = 8 := by omega
    have hn : (0x8F0E + y * 16) % 16 = 14 := by omega
    have hx : (0x8F0E + y * 16) / 256 % 16 = 15 := by omega
    rw [executeOpcode]
    simp only [hg, hn, hx]
    norm_num [Res.vOf, v8, upd]
    have hOr : s.V 15 % 256 &&& 128 = 0 ∨ s.V 15 % 256 &&& 128 = 128 := by
      have h2 := Nat.and_two_pow (s.V 15 % 256) 7
      cases hb : Nat.testBit (s.V 15 % 256) 7 <;> rw [hb] at h2
      · simp at h2
        omega
      · norm_num at h2
        omega
    rcases hOr with h | h <;> rw [h]

/-- C1 witness: `c1_flag_write_order` at a concrete register file. -/
theorem c1_flag_write_order_witness :
    ((executeOpcode 0 (0x8F04 + 1 * 16) waitState).vOf 15 =
      some (if v8 waitState 15 + v8 waitState 1 > 255 then 1 else 0)) ∧
    ((executeOpcode 0 (0x8F05 + 1 * 16) waitState).vOf 15 =
      some (((if v8 waitState 15 ≥ v8 waitState 1 then 1 else 0) + 256 -
        v8 waitState 1) % 256)) :=
  ⟨((c1_flag_write_order 0 1 waitState (by decide) (by decide)).1),
    ((c1_flag_write_order 0 1 waitState (by decide) (by decide)).2.1)⟩

/-- The instruction words the dispatch of `executeOpcode` recognizes: every
word outside the 0x8/0xE/0xF groups hits a primary case (the whole 0x0 group
falls into the `0NNN` default, and the 0x5/0x9 groups match any low nibble),
while the 0x8/0xE/0xF groups recognize only the listed secondary values. -/
def definedOp (w : Nat) : Bool :=
  let g := w / 4096 % 16
  if g = 8 then decide (w % 16 ≤ 7 ∨ w % 16 = 14)
  else if g = 14 then decide (w % 256 = 0x9E ∨ w % 256 = 0xA1)
  else if g = 15 then
    decide (w % 256 = 0x07 ∨ w % 256 = 0x0A ∨ w % 256 = 0x15 ∨ w % 256 = 0x18 ∨
      w % 256 = 0x1E ∨ w % 256 = 0x29 ∨ w % 256 = 0x33 ∨ w % 256 = 0x55 ∨
      w % 256 = 0x65)
  else true

/-- C2 counterexample: the word 0x0123 is in the 0x0 group but is neither
00E0 nor 00EE, so by the claim it should fail with UnknownOpcode; the code
ignores it as a 0NNN machine-code call and returns success with no error. -/
theorem c2_counterexample :
    (executeOpcode 0 0x0123 New).isOk = true ∧
    (executeOpcode 0 0x0123 New).errOf = none := by
  exact ⟨rfl, rfl⟩

/-- C2 amended: an instruction word fails with `UnknownOpcode` exactly when
its dispatch matches no defined case outside the 0x0 group; words in the 0x0
group other than 00E0/00EE are silently ignored with success and no state
change (the 0NNN machine-code branch). -/
theorem c2_unknown_opcode_dispatch :
    ∀ (r : Nat) (s : CHIP8) (w : Nat), w < 65536 →
      ((executeOpcode r w s = .err (.unknownOpcode w)) ↔ definedOp w = false) ∧
      (w / 4096 % 16 = 0 → w ≠ 0x00E0 → w ≠ 0x00EE → executeOpcode r w s = .ok s) := by
  intro r s w hw
  have hG : w / 4096 % 16 = 0 ∨ w / 4096 % 16 = 1 ∨ w / 4096 % 16 = 2 ∨
      w / 4096 % 16 = 3 ∨ w / 4096 % 16 = 4 ∨ w / 4096 % 16 = 5 ∨
      w / 4096 % 16 = 6 ∨ w / 4096 % 16 = 7 ∨ w / 4096 % 16 = 8 ∨
      w / 4096 % 16 = 9 ∨ w / 4096 % 16 = 10 ∨ w / 4096 % 16 = 11 ∨
      w / 4096 % 16 = 12 ∨ w / 4096 % 16 = 13 ∨ w / 4096 % 16 = 14 ∨
      w / 4096 % 16 = 15 := by omega
  constructor
  · rw [executeOpcode, definedOp]
    rcases hG with hg|hg|hg|hg|hg|hg|hg|hg|hg|hg|hg|hg|hg|hg|hg|hg <;>
        simp only [hg] <;> simp
    · -- group 0: clear / return / ignored, never UnknownOpcode
      split_ifs <;> simp
    · -- group 2: call, may overflow but never UnknownOpcode
      split_ifs <;> simp
    · -- group 8: secondary dispatch on the low nibble
      have hn : w % 16 = 0 ∨ w % 16 = 1 ∨ w % 16 = 2 ∨ w % 16 = 3 ∨ w % 16 = 4 ∨
          w % 16 = 5 ∨ w % 16 = 6 ∨ w % 16 = 7 ∨ w % 16 = 8 ∨ w % 16 = 9 ∨
          w % 16 = 10 ∨ w % 16 = 11 ∨ w % 16 = 12 ∨ w % 16 = 13 ∨ w % 16 = 14 ∨
          w % 16 = 15 := by omega
      rcases hn with hn|hn|hn|hn|hn|hn|hn|hn|hn|hn|hn|hn|hn|hn|hn|hn <;>
        simp [hn]
    · -- group 13: draw, may crash but never UnknownOpcode
      rcases hdr : drawRows (w / 256 % 16) (w / 16 % 16) (List.range (w % 16))
          { s with V := upd s.V 15 0 } with _ | s2 <;> simp [hdr]
    · -- group 14: secondary dispatch on the low byte
      by_cases h9E : w % 256 = 158
      · simp only [h9E]
        norm_num
        split_ifs <;> simp
      · by_cases hA1 : w % 256 = 161
        · simp only [h9E, hA1]
          norm_num
          split_ifs <;> simp
        · simp [h9E, hA1]
    · -- group 15: secondary dispatch on the low byte
      by_cases h07 : w % 256 = 7
      · simp [h07]
      · by_cases h0A : w % 256 = 10
        · simp [h07, h0A]
        · by_cases h15 : w % 256 = 21
          · simp [h07, h0A, h15]
          · by_cases h18 : w % 256 = 24
            · simp [h07, h0A, h15, h18]
            · by_cases h1E : w % 256 = 30
              · simp [h07, h0A, h15, h18, h1E]
              · by_cases h29 : w % 256 = 41
                · simp [h07, h0A, h15, h18, h1E, h29]
                · by_cases h33 : w % 256 = 51
                  · simp only [h07, h0A, h15, h18, h1E, h29, h33]
                    norm_num
                    rcases hm1 : memWrite s (i16 s) (v8 s (w / 256 % 16) / 100)
                        with _ | s1 <;> simp only [hm1]
                    · simp
                    · rcases hm2 : memWrite s1 ((i16 s1 + 1) % 65536)
                          (v8 s1 (w / 256 % 16) / 10 % 10) with _ | s2 <;>
                        simp only [hm2]
                      · simp
                      · rcases hm3 : memWrite s2 ((i16 s2 + 2) % 65536)
                            (v8 s2 (w / 256 % 16) % 10) with _ | s3 <;>
                          simp [hm3]
                  · by_cases h55 : w % 256 = 85
                    · simp only [h07, h0A, h15, h18, h1E, h29, h33, h55]
                      norm_num
                      rcases hm : storeRegsAux (List.range (w / 256 % 16 + 1)) s
                          with _ | s1 <;> simp [hm]
                    · by_cases h65 : w % 256 = 101
                      · simp only [h07, h0A, h15, h18, h1E, h29, h33, h55, h65]
                        norm_num
                        rcases hm : loadRegsAux (List.range (w / 256 % 16 + 1)) s
                            with _ | s1 <;> simp [hm]
                      · simp [h07, h0A, h15, h18, h1E, h29, h33, h55, h65]
  · intro hg hE0 hEE
    rw [executeOpcode]
    simp only [hg]
    norm_num
    rw [if_neg hE0, if_neg hEE]

/-- C2 witness: `c2_unknown_opcode_dispatch` at the undefined word 0x8F08
(rejected) and at the 0x0-group word 0x0200 (silently ignored). -/
theorem c2_unknown_opcode_dispatch_witness :
    (executeOpcode 0 0x8F08 New = .err (.unknownOpcode 0x8F08)) ∧
    (executeOpcode 0 0x0200 New = .ok New) :=
  ⟨(c2_unknown_opcode_dispatch 0 New 0x8F08 (by decide)).1.mpr (by decide),
    (c2_unknown_opcode_dispatch 0 New 0x0200 (by decide)).2 (by decide)
      (by decide) (by decide)⟩

/-- A memory read fails (panics) exactly on an out-of-range address. -/
theorem memRead_eq_none (s : CHIP8) (a : Nat) :
    memRead s a = none ↔ ¬ a < MemorySize := by
  rw [memRead]
  split_ifs with h <;> simp [h]

/-- A successful memory read means the address was in range. -/
theorem memRead_some_lt (s : CHIP8) (a b : Nat) (h : memRead s a = some b) :
    a < MemorySize := by
  rw [memRead] at h
  split_ifs at h with hb
  exact hb

/-- A memory write fails (panics) exactly on an out-of-range address. -/
theorem memWrite_eq_none (s : CHIP8) (a v : Nat) :
    memWrite s a v = none ↔ ¬ a < MemorySize := by
  rw [memWrite]
  split_ifs with h <;> simp [h]

/-- A successful memory write was in range and only changed memory. -/
theorem memWrite_some_parts (s t : CHIP8) (a v : Nat) (h : memWrite s a v = some t) :
    a < MemorySize ∧ t.I = s.I ∧ t.V = s.V := by
  rw [memWrite] at h
  split_ifs at h with hb
  cases h
  exact ⟨hb, rfl, rfl⟩

/-- One draw-column step changes neither `I` nor memory. -/
theorem drawCol_frame (x y row sprite col : Nat) (s : CHIP8) :
    (drawCol x y row sprite col s).I = s.I ∧
    (drawCol x y row sprite col s).Memory = s.Memory := by
  simp only [drawCol, drawPixel]
  split_ifs <;> exact ⟨rfl, rfl⟩

/-- One draw-row loop changes neither `I` nor memory. -/
theorem drawRow_frame (x y row sprite : Nat) : ∀ (cols : List Nat) (s : CHIP8),
    (drawRow x y row sprite cols s).I = s.I ∧
    (drawRow x y row sprite cols s).Memory = s.Memory := by
  intro cols
  induction cols with
  | nil => intro s; exact ⟨rfl, rfl⟩
  | cons c rest ih =>
    intro s
    rw [drawRow]
    have h1 := drawCol_frame x y row sprite c s
    have h2 := ih (drawCol x y row sprite c s)
    exact ⟨h2.1.trans h1.1, h2.2.trans h1.2⟩

/-- The DXYN row loop panics exactly when some accessed sprite address
`(I + row) mod 2^16` is out of range. -/
theorem drawRows_eq_none (x y : Nat) : ∀ (rows : List Nat) (s : CHIP8),
    drawRows x y rows s = none ↔
      ∃ rw ∈ rows, ¬ ((i16 s + rw) % 65536 < MemorySize) := by
  intro rows
  induction rows with
  | nil => intro s; simp [drawRows]
  | cons rw0 rest ih =>
    intro s
    rw [drawRows]
    cases hm : memRead s ((i16 s + rw0) % 65536) with
    | none =>
      exact iff_of_true rfl
        ⟨rw0, List.mem_cons_self rw0 rest, (memRead_eq_none s _).mp hm⟩
    | some sprite =>
      have haddr := memRead_some_lt s _ _ hm
      rw [ih (drawRow x y rw0 sprite (List.range 8) s)]
      have hI : i16 (drawRow x y rw0 sprite (List.range 8) s) = i16 s := by
        rw [i16, i16, (drawRow_frame x y rw0 sprite (List.range 8) s).1]
      rw [hI]
      constructor
      · rintro ⟨rr, hrr, h⟩
        exact ⟨rr, List.mem_cons_of_mem rw0 hrr, h⟩
      · rintro ⟨rr, hrr, h⟩
        rcases List.mem_cons.mp hrr with heq | hmem
        · subst heq
          exact absurd haddr h
        · exact ⟨rr, hmem, h⟩

/-- The FX55 store loop panics exactly when some accessed address
`(I + i) mod 2^16` is out of range. -/
theorem storeRegsAux_eq_none : ∀ (l : List Nat) (s : CHIP8),
    storeRegsAux l s = none ↔ ∃ i ∈ l, ¬ ((i16 s + i) % 65536 < MemorySize) := by
  intro l
  induction l with
  | nil => intro s; simp [storeRegsAux]
  | cons i0 rest ih =>
    intro s
    rw [storeRegsAux]
    cases hm : memWrite s ((i16 s + i0) % 65536) (v8 s i0) with
    | none =>
      exact iff_of_true rfl
        ⟨i0, List.mem_cons_self i0 rest, (memWrite_eq_none s _ _).mp hm⟩
    | some s1 =>
      have hparts := memWrite_some_parts s s1 _ _ hm
      rw [ih s1]
      have hI : i16 s1 = i16 s := by rw [i16, i16, hparts.2.1]
      rw [hI]
      constructor
      · rintro ⟨i, hi, h⟩
        exact ⟨i, List.mem_cons_of_mem i0 hi, h⟩
      · rintro ⟨i, hi, h⟩
        rcases List.mem_cons.mp hi with heq | hmem
        · subst heq
          exact absurd hparts.1 h
        · exact ⟨i, hmem, h⟩

/-- The FX65 load loop panics exactly when some accessed address
`(I + i) mod 2^16` is out of range. -/
theorem loadRegsAux_eq_none : ∀ (l : List Nat) (s : CHIP8),
    loadRegsAux l s = none ↔ ∃ i ∈ l, ¬ ((i16 s + i) % 65536 < MemorySize) := by
  intro l
  induction l with
  | nil => intro s; simp [loadRegsAux]
  | cons i0 rest ih =>
    intro s
    rw [loadRegsAux]
    cases hm : memRead s ((i16 s + i0) % 65536) with
    | none =>
      exact iff_of_true rfl
        ⟨i0, List.mem_cons_self i0 rest, (memRead_eq_none s _).mp hm⟩
    | some b =>
      have haddr := memRead_some_lt s _ _ hm
      rw [ih { s with V := upd s.V i0 b }]
      constructor
      · rintro ⟨i, hi, h⟩
        exact ⟨i, List.mem_cons_of_mem i0 hi, h⟩
      · rintro ⟨i, hi, h⟩
        rcases List.mem_cons.mp hi with heq | hmem
        · subst heq
          exact absurd haddr h
        · exact ⟨i, hmem, h⟩

/-- A machine whose index register sits at the top of memory, so that
I-indirect accesses run past address 4095. -/
def nearEnd : CHIP8 := { New with I := 4094 }

/-- C3 counterexample: with I = 4094 (reachable, e.g. via ANNN/FX1E), the BCD
store FX33 must write memory[4096]; the step neither stays in bounds nor
returns a defined error — it crashes (Go out-of-range panic, no error value). -/
theorem c3_counterexample :
    (executeOpcode 0 0xF133 nearEnd).isCrash = true ∧
    (executeOpcode 0 0xF133 nearEnd).errOf = none := by
  exact ⟨rfl, rfl⟩

/-- C3 amended: for the I-indirect instructions (DXYN, FX33, FX55, FX65) the
step crashes (models the Go out-of-range panic) exactly when some effective
address `(I + offset) mod 2^16` falls outside the 4096-byte memory; when every
effective address is in range the accesses stay in bounds and the step does
not crash.  An out-of-range access is a panic, not a defined error result. -/
theorem c3_indirect_access_crash :
    ∀ (r : Nat) (s : CHIP8),
      (∀ x y n, x < 16 → y < 16 → n < 16 →
        ((executeOpcode r (0xD000 + x * 256 + y * 16 + n) s).isCrash = true ↔
          ∃ rw, rw < n ∧ 4096 ≤ (i16 s + rw) % 65536)) ∧
      (∀ x, x < 16 →
        ((executeOpcode r (0xF033 + x * 256) s).isCrash = true ↔
          ∃ k, k < 3 ∧ 4096 ≤ (i16 s + k) % 65536)) ∧
      (∀ x, x < 16 →
        ((executeOpcode r (0xF055 + x * 256) s).isCrash = true ↔
          ∃ i, i ≤ x ∧ 4096 ≤ (i16 s + i) % 65536)) ∧
      (∀ x, x < 16 →
        ((executeOpcode r (0xF065 + x * 256) s).isCrash = true ↔
          ∃ i, i ≤ x ∧ 4096 ≤ (i16 s + i) % 65536)) := by
  intro r s
  have hi16 : i16 s < 65536 := Nat.mod_lt _ (by omega)
  refine ⟨?_, ?_, ?_, ?_⟩
  · intro x y n hx hy hn
    have hg : (0xD000 + x * 256 + y * 16 + n) / 4096 % 16 = 13 := by omega
    have hx' : (0xD000 + x * 256 + y * 16 + n) / 256 % 16 = x := by omega
    have hy' : (0xD000 + x * 256 + y * 16 + n) / 16 % 16 = y := by omega
    have hn' : (0xD000 + x * 256 + y * 16 + n) % 16 = n := by omega
    have his : i16 { s with V := upd s.V 15 0 } = i16 s := rfl
    rw [executeOpcode]
    simp only [hg, hx', hy', hn']
    norm_num
    rcases hdr : drawRows x y (List.range n) { s with V := upd s.V 15 0 }
        with _ | s2 <;> simp only [hdr, Res.isCrash]
    · have h := (drawRows_eq_none x y (List.range n)
        { s with V := upd s.V 15 0 }).mp hdr
      simp only [List.mem_range, MemorySize, his] at h
      rcases h with ⟨rw0, hrw, h⟩
      exact iff_of_true trivial ⟨rw0, hrw, by omega⟩
    · refine iff_of_false (fun h => Bool.noConfusion h) ?_
      rintro ⟨rw0, hrw, h⟩
      have hnone : drawRows x y (List.range n) { s with V := upd s.V 15 0 } =
          none := by
        rw [drawRows_eq_none]
        refine ⟨rw0, List.mem_range.mpr hrw, ?_⟩
        rw [his]
        simp only [MemorySize]
        omega
      rw [hnone] at hdr
      cases hdr
  · intro x hx
    have hg : (0xF033 + x * 256) / 4096 % 16 = 15 := by omega
    have hnn : (0xF033 + x * 256) % 256 = 51 := by omega
    have hx' : (0xF033 + x * 256) / 256 % 16 = x := by omega
    rw [executeOpcode]
    simp only [hg, hnn, hx']
    norm_num
    rcases hm1 : memWrite s (i16 s) (v8 s x / 100) with _ | s1 <;>
      simp only [hm1, Res.isCrash]
    · have h := (memWrite_eq_none s _ _).mp hm1
      simp only [MemorySize] at h
      exact iff_of_true trivial ⟨0, by omega, by omega⟩
    · have hp1 := memWrite_some_parts s s1 _ _ hm1
      have hI1 : i16 s1 = i16 s := by rw [i16, i16, hp1.2.1]
      rcases hm2 : memWrite s1 ((i16 s1 + 1) % 65536) (v8 s1 x / 10 % 10)
          with _ | s2 <;> simp only [hm2, Res.isCrash]
      · have h := (memWrite_eq_none s1 _ _).mp hm2
        simp only [MemorySize, hI1] at h
        exact iff_of_true trivial ⟨1, by omega, by omega⟩
      · have hp2 := memWrite_some_parts s1 s2 _ _ hm2
        have hI2 : i16 s2 = i16 s := by rw [i16, i16, hp2.2.1, hp1.2.1]
        rcases hm3 : memWrite s2 ((i16 s2 + 2) % 65536) (v8 s2 x % 10)
            with _ | s3 <;> simp only [hm3, Res.isCrash]
        · have h := (memWrite_eq_none s2 _ _).mp hm3
          simp only [MemorySize, hI2] at h
          exact iff_of_true trivial ⟨2, by omega, by omega⟩
        · refine iff_of_false (fun h => Bool.noConfusion h) ?_
          rintro ⟨k, hk, h⟩
          have h1 := hp1.1
          have h2 := hp2.1
          have h3 := (memWrite_some_parts s2 s3 _ _ hm3).1
          simp only [MemorySize] at h1 h2 h3
          rw [hI1] at h2
          rw [hI2] at h3
          rcases (by omega : k = 0 ∨ k = 1 ∨ k = 2) with hk0 | hk1 | hk2 <;>
            subst_vars <;> omega
  · intro x hx
    have hg : (0xF055 + x * 256) / 4096 % 16 = 15 := by omega
    have hnn : (0xF055 + x * 256) % 256 = 85 := by omega
    have hx' : (0xF055 + x * 256) / 256 % 16 = x := by omega
    rw [executeOpcode]
    simp only [hg, hnn, hx']
    norm_num
    rcases hm : storeRegsAux (List.range (x + 1)) s with _ | s1 <;>
      simp only [hm, Res.isCrash]
    · have h := (storeRegsAux_eq_none (List.range (x + 1)) s).mp hm
      simp only [List.mem_range, MemorySize] at h
      rcases h with ⟨i, hi, h⟩
      exact iff_of_true trivial ⟨i, by omega, by omega⟩
    · refine iff_of_false (fun h => Bool.noConfusion h) ?_
      rintro ⟨i, hi, h⟩
      have hnone : storeRegsAux (List.range (x + 1)) s = none := by
        rw [storeRegsAux_eq_none]
        refine ⟨i, List.mem_range.mpr (by omega), ?_⟩
        simp only [MemorySize]
        omega
      rw [hnone] at hm
      cases hm
  · intro x hx
    have hg : (0xF065 + x * 256) / 4096 % 16 = 15 := by omega
    have hnn : (0xF065 + x * 256) % 256 = 101 := by omega
    have hx' : (0xF065 + x * 256) / 256 % 16 = x := by omega
    rw [executeOpcode]
    simp only [hg, hnn, hx']
    norm_num
    rcases hm : loadRegsAux (List.range (x + 1)) s with _ | s1 <;>
      simp only [hm, Res.isCrash]
    · have h := (loadRegsAux_eq_none (List.range (x + 1)) s).mp hm
      simp only [List.mem_range, MemorySize] at h
      rcases h with ⟨i, hi, h⟩
      exact iff_of_true trivial ⟨i, by omega, by omega⟩
    · refine iff_of_false (fun h => Bool.noConfusion h) ?_
      rintro ⟨i, hi, h⟩
      have hnone : loadRegsAux (List.range (x + 1)) s = none := by
        rw [loadRegsAux_eq_none]
        refine ⟨i, List.mem_range.mpr (by omega), ?_⟩
        simp only [MemorySize]
        omega
      rw [hnone] at hm
      cases hm

/-- C3 witness: `c3_indirect_access_crash` at I = 4094 (FX33 crashes: its
third write is out of range) and at a fresh machine with I = 0 (FX55 on
V0..V1 does not crash). -/
theorem c3_indirect_access_crash_witness :
    (executeOpcode 0 0xF133 nearEnd).isCrash = true ∧
    (executeOpcode 0 (0xF055 + 1 * 256) New).isCrash = false := by
  constructor
  · exact ((c3_indirect_access_crash 0 nearEnd).2.1 1 (by decide)).mpr
      ⟨2, by decide, by decide⟩
  · have h := (c3_indirect_access_crash 0 New).2.2.1 1 (by decide)
    by_cases hc : (executeOpcode 0 (0xF055 + 1 * 256) New).isCrash = true
    · rcases h.mp hc with ⟨i, hi, hoob⟩
      have hNew : i16 New = 0 := rfl
      rw [hNew] at hoob
      exact absurd hoob (by omega)
    · simpa using hc

/-- When the machine is not waiting and both fetch addresses are in range,
`Cycle` is the big-endian fetch followed by `executeOpcode` on the advanced
state. -/
theorem Cycle_fetch (r : Nat) (s : CHIP8) (hw : s.WaitingForKey = false)
    (hpc : s.PC % 65536 + 1 < 4096) :
    Cycle r s =
      executeOpcode r (mem8 s (pc16 s) * 256 + mem8 s ((pc16 s + 1) % 65536))
        { s with PC := (pc16 s + 2) % 65536 } := by
  rw [Cycle]
  rw [if_neg (by simp [hw])]
  have h0 : memRead s (pc16 s) = some (mem8 s (pc16 s)) := by
    rw [memRead,
      if_pos (show pc16 s < MemorySize by simp only [MemorySize, pc16]; omega)]
  have h1 : memRead s ((pc16 s + 1) % 65536) =
      some (mem8 s ((pc16 s + 1) % 65536)) := by
    rw [memRead, if_pos (show (pc16 s + 1) % 65536 < MemorySize by
      simp only [MemorySize, pc16]; omega)]
  simp only [h0, h1]

/-- The state after a call from P to nnn: the advanced PC is pushed, SP is
bumped, control moves to nnn. -/
def afterCall (s : CHIP8) (P nnn : Nat) : CHIP8 :=
  { s with Stack := upd s.Stack (sp8 s) (P + 2), SP := (sp8 s + 1) % 256, PC := nnn }

/-- One `Cycle` over a "call nnn" instruction: push the advanced PC, bump SP,
jump to nnn. -/
theorem cycle_call (r P nnn : Nat) (s : CHIP8) (hPC : s.PC = P)
    (hPlt : P + 1 < 4096) (hw : s.WaitingForKey = false) (hsp : sp8 s < 16)
    (hnlt : nnn < 4096) (hb0 : mem8 s P = 0x20 + nnn / 256)
    (hb1 : mem8 s (P + 1) = nnn % 256) :
    Cycle r s = .ok (afterCall s P nnn) := by
  have hPmod : s.PC % 65536 = P := by rw [hPC]; omega
  rw [Cycle_fetch r s hw (by omega)]
  rw [show pc16 s = P from hPmod]
  rw [show (P + 1) % 65536 = P + 1 by omega]
  rw [hb0, hb1]
  rw [show (0x20 + nnn / 256) * 256 + nnn % 256 = 0x2000 + nnn by omega]
  rw [show (P + 2) % 65536 = P + 2 by omega]
  have hg : (0x2000 + nnn) / 4096 % 16 = 2 := by omega
  have hnnn2 : (0x2000 + nnn) % 4096 = nnn := by omega
  rw [executeOpcode]
  simp only [hg, hnnn2]
  norm_num
  have hcond : ¬ StackSize ≤ sp8 ({ s with PC := P + 2 } : CHIP8) := by
    show ¬ (16 : Nat) ≤ sp8 s
    omega
  rw [if_neg hcond]
  have hpcr : pc16 ({ s with PC := P + 2 } : CHIP8) = P + 2 := by
    show (P + 2) % 65536 = P + 2
    omega
  rw [hpcr]
  rfl

/-- One `Cycle` over a "return" instruction: pop the stack into PC. -/
theorem cycle_ret (r P : Nat) (s : CHIP8) (hPC : s.PC = P)
    (hPlt : P + 1 < 4096) (hw : s.WaitingForKey = false) (hsp : 0 < sp8 s)
    (hsp16 : sp8 s ≤ 16) (hb0 : mem8 s P = 0x00) (hb1 : mem8 s (P + 1) = 0xEE) :
    Cycle r s = .ok { s with SP := sp8 s - 1, PC := st16 s (sp8 s - 1) } := by
  have hPmod : s.PC % 65536 = P := by rw [hPC]; omega
  rw [Cycle_fetch r s hw (by omega)]
  rw [show pc16 s = P from hPmod]
  rw [show (P + 1) % 65536 = P + 1 by omega]
  rw [hb0, hb1]
  norm_num
  rw [executeOpcode]
  norm_num
  have hne : ¬ sp8 ({ s with PC := (P + 2) % 65536 } : CHIP8) = 0 := by
    show ¬ sp8 s = 0
    omega
  rw [if_neg hne]
  have hlt : sp8 ({ s with PC := (P + 2) % 65536 } : CHIP8) - 1 < StackSize := by
    show sp8 s - 1 < 16
    omega
  rw [if_pos hlt]
  rfl

/-- One `Cycle` over a "return" instruction with an empty stack fails. -/
theorem cycle_ret_underflow (r P : Nat) (s : CHIP8) (hPC : s.PC = P)
    (hPlt : P + 1 < 4096) (hw : s.WaitingForKey = false) (hsp : sp8 s = 0)
    (hb0 : mem8 s P = 0x00) (hb1 : mem8 s (P + 1) = 0xEE) :
    Cycle r s = .err .stackUnderflow := by
  have hPmod : s.PC % 65536 = P := by rw [hPC]; omega
  rw [Cycle_fetch r s hw (by omega)]
  rw [show pc16 s = P from hPmod]
  rw [show (P + 1) % 65536 = P + 1 by omega]
  rw [hb0, hb1]
  norm_num
  rw [executeOpcode]
  norm_num
  intro hcon
  exact absurd hsp hcon

/-- One `Cycle` over a "call" instruction with a full stack fails. -/
theorem cycle_call_overflow (r P nnn : Nat) (s : CHIP8) (hPC : s.PC = P)
    (hPlt : P + 1 < 4096) (hw : s.WaitingForKey = false) (hsp : sp8 s = 16)
    (hnlt : nnn < 4096) (hb0 : mem8 s P = 0x20 + nnn / 256)
    (hb1 : mem8 s (P + 1) = nnn % 256) :
    Cycle r s = .err .stackOverflow := by
  have hPmod : s.PC % 65536 = P := by rw [hPC]; omega
  rw [Cycle_fetch r s hw (by omega)]
  rw [show pc16 s = P from hPmod]
  rw [show (P + 1) % 65536 = P + 1 by omega]
  rw [hb0, hb1]
  rw [show (0x20 + nnn / 256) * 256 + nnn % 256 = 0x2000 + nnn by omega]
  have hg : (0x2000 + nnn) / 4096 % 16 = 2 := by omega
  rw [executeOpcode]
  simp only [hg]
  norm_num
  have hge : StackSize ≤ sp8 ({ s with PC := (P + 2) % 65536 } : CHIP8) := by
    show (16 : Nat) ≤ sp8 s
    omega
  intro hcon
  exact absurd hge (Nat.not_le_of_lt hcon)

/-- C6: from PC = P with SP < 16 and "call nnn" at P, one step yields PC = nnn,
SP + 1, and the pushed slot P + 2; a following "return" at nnn restores
PC = P + 2 and the original SP with stack and memory untouched — a round
trip.  Return on an empty stack fails with StackUnderflow; call with SP = 16
fails with StackOverflow. -/
theorem c6_call_return_roundtrip :
    (∀ (r r2 P nnn : Nat) (s : CHIP8),
      s.PC = P → P + 1 < 4096 → s.WaitingForKey = false →
      sp8 s < 16 → nnn + 1 < 4096 →
      mem8 s P = 0x20 + nnn / 256 → mem8 s (P + 1) = nnn % 256 →
      mem8 s nnn = 0x00 → mem8 s (nnn + 1) = 0xEE →
      ∃ s1 s2, Cycle r s = .ok s1 ∧ pc16 s1 = nnn ∧ sp8 s1 = sp8 s + 1 ∧
        st16 s1 (sp8 s) = P + 2 ∧ s1.Memory = s.Memory ∧
        Cycle r2 s1 = .ok s2 ∧ pc16 s2 = P + 2 ∧ sp8 s2 = sp8 s ∧
        s2.Stack = s1.Stack ∧ s2.Memory = s.Memory) ∧
    (∀ (r P : Nat) (s : CHIP8),
      s.PC = P → P + 1 < 4096 → s.WaitingForKey = false → sp8 s = 0 →
      mem8 s P = 0x00 → mem8 s (P + 1) = 0xEE →
      Cycle r s = .err .stackUnderflow) ∧
    (∀ (r P nnn : Nat) (s : CHIP8),
      s.PC = P → P + 1 < 4096 → s.WaitingForKey = false → sp8 s = 16 →
      nnn < 4096 →
      mem8 s P = 0x20 + nnn / 256 → mem8 s (P + 1) = nnn % 256 →
      Cycle r s = .err .stackOverflow) := by
  refine ⟨?_, ?_, ?_⟩
  · intro r r2 P nnn s hPC hPlt hw hsp hnlt hb0 hb1 hb2 hb3
    have hstep1 := cycle_call r P nnn s hPC hPlt hw hsp (by omega) hb0 hb1
    have hsp1 : sp8 (afterCall s P nnn) = sp8 s + 1 := by
      show ((sp8 s + 1) % 256) % 256 = sp8 s + 1
      omega
    have hstep2 := cycle_ret r2 nnn (afterCall s P nnn) rfl (by omega) hw
      (by rw [hsp1]; omega) (by rw [hsp1]; omega) hb2 hb3
    rw [hsp1] at hstep2
    refine ⟨_, _, hstep1, ?_, hsp1, ?_, rfl, hstep2, ?_, ?_, rfl, rfl⟩
    · show nnn % 65536 = nnn
      omega
    · show upd s.Stack (sp8 s) (P + 2) (sp8 s) % 65536 = P + 2
      rw [upd_self]
      omega
    · show st16 (afterCall s P nnn) (sp8 s + 1 - 1) % 65536 = P + 2
      rw [show sp8 s + 1 - 1 = sp8 s from by omega]
      show (upd s.Stack (sp8 s) (P + 2) (sp8 s) % 65536) % 65536 = P + 2
      rw [upd_self]
      omega
    · show (sp8 s + 1 - 1) % 256 = sp8 s
      omega
  · intro r P s hPC hPlt hw hsp hb0 hb1
    exact cycle_ret_underflow r P s hPC hPlt hw hsp hb0 hb1
  · intro r P nnn s hPC hPlt hw hsp hnlt hb0 hb1
    exact cycle_call_overflow r P nnn s hPC hPlt hw hsp hnlt hb0 hb1

/-- A machine ready to run a call at 0x200 to 0x300 with a return there. -/
def callProg : CHIP8 :=
  { New with Memory := upd (upd (upd (upd New.Memory 0x200 0x23) 0x201 0x00)
      0x300 0x00) 0x301 0xEE }

/-- C6 witness: `c6_call_return_roundtrip` on a concrete machine: call
0x300 from 0x200 and return, plus concrete underflow and overflow errors. -/
theorem c6_call_return_roundtrip_witness :
    (∃ s1 s2, Cycle 0 callProg = .ok s1 ∧ pc16 s1 = 0x300 ∧
      sp8 s1 = sp8 callProg + 1 ∧ st16 s1 (sp8 callProg) = 0x202 ∧
      s1.Memory = callProg.Memory ∧
      Cycle 0 s1 = .ok s2 ∧ pc16 s2 = 0x202 ∧ sp8 s2 = sp8 callProg ∧
      s2.Stack = s1.Stack ∧ s2.Memory = callProg.Memory) ∧
    (Cycle 0 { New with Memory := upd (upd New.Memory 0x200 0x00) 0x201 0xEE } =
      .err .stackUnderflow) ∧
    (Cycle 0 { callProg with SP := 16 } = .err .stackOverflow) := by
  refine ⟨?_, ?_, ?_⟩
  · exact c6_call_return_roundtrip.1 0 0 0x200 0x300 callProg rfl (by decide)
      (by decide) (by decide) (by decide) (by decide) (by decide) (by decide)
      (by decide)
  · exact c6_call_return_roundtrip.2.1 0 0x200 _ rfl (by decide) (by decide)
      (by decide) (by decide) (by decide)
  · exact c6_call_return_roundtrip.2.2 0 0x200 0x300 _ rfl (by decide)
      (by decide) (by decide) (by decide) (by decide) (by decide)

/-!
### The draw instruction (DXYN), stated the way the spec words it

`specDrawCol`/`specDrawRowCols`/`specDraw` restate the sprite-draw effect with
fixed coordinate values `vx`, `vy` (the spec's "Vx", "Vy"): for each of the n
bytes at `mem[I..I+n-1]`, for each of its 8 bits MSB-first, the target pixel
is `((vx+col) mod 64, (vy+row) mod 32)`; a set bit XORs the target pixel, and
the collision flag records whether some XOR turned a 1 pixel to 0.  They are
compared against the loop in `executeOpcode`, which re-reads the registers
live each iteration.
-/

/-- One bit of the spec-side draw: MSB-first bit `col` of `byte`; the target
pixel is `((vx + col) mod 64, (vy + row) mod 32)` in the row-major display. -/
def specDrawCol (vx vy row byte col : Nat) (p : (Nat → Nat) × Bool) :
    (Nat → Nat) × Bool :=
  if byte.testBit (7 - col) then
    (upd p.1 ((vy + row) % 32 * 64 + (vx + col) % 64)
       (p.1 ((vy + row) % 32 * 64 + (vx + col) % 64) ^^^ 1),
     p.2 || decide (p.1 ((vy + row) % 32 * 64 + (vx + col) % 64) = 1))
  else p

/-- One row of the spec-side draw: the 8 bits of `byte`, MSB first. -/
def specDrawRowCols (vx vy row byte : Nat) :
    List Nat → (Nat → Nat) × Bool → (Nat → Nat) × Bool
  | [], p => p
  | c :: rest, p => specDrawRowCols vx vy row byte rest (specDrawCol vx vy row byte c p)

/-- The spec-side draw: rows `rows`, sprite bytes read at `mem (iAddr + row)`. -/
def specDraw (vx vy iAddr : Nat) (mem : Nat → Nat) :
    List Nat → (Nat → Nat) × Bool → (Nat → Nat) × Bool
  | [], p => p
  | rw0 :: rest, p =>
    specDraw vx vy iAddr mem rest
      (specDrawRowCols vx vy rw0 (mem (iAddr + rw0)) (List.range 8) p)

/-- Correspondence between a mid-draw machine state `t` and the spec-side
accumulator `p`, relative to the pre-instruction state `s0`. -/
structure DrawRel (s0 t : CHIP8) (p : (Nat → Nat) × Bool) : Prop where
  disp : ∀ j, t.Display j % 256 = p.1 j
  vf : v8 t 15 = if p.2 then 1 else 0
  vother : ∀ i, i ≠ 15 → t.V i = s0.V i
  mem : t.Memory = s0.Memory
  iReg : t.I = s0.I
  pc : t.PC = s0.PC
  stack : t.Stack = s0.Stack
  sp : t.SP = s0.SP
  dt : t.DelayTimer = s0.DelayTimer
  sndt : t.SoundTimer = s0.SoundTimer
  keys : t.Keys = s0.Keys
  waiting : t.WaitingForKey = s0.WaitingForKey
  keyReg : t.KeyRegister = s0.KeyRegister
  drawFlag : t.DrawFlag = s0.DrawFlag

set_option maxRecDepth 8192 in
/-- `0x80 >> col` tests exactly the MSB-first bit `7 - col`. -/
theorem bit_msb : ∀ sprite, sprite < 256 → ∀ col, col < 8 →
    ((sprite &&& (128 >>> col) ≠ 0) ↔ sprite.testBit (7 - col)) := by
  decide

set_option maxRecDepth 8192 in
/-- XOR with 1 keeps a byte below 256. -/
theorem xor1_lt : ∀ a, a < 256 → a ^^^ 1 < 256 := by
  decide

/-- `drawPixel` on a lit pixel: set VF and clear the pixel. -/
theorem drawPixel_eq_pos (idx : Nat) (s : CHIP8) (h : s.Display idx % 256 = 1) :
    drawPixel idx s =
      { s with V := upd s.V 15 1,
               Display := upd s.Display idx (s.Display idx % 256 ^^^ 1) } := by
  rw [drawPixel, if_pos h]

/-- `drawPixel` on a dark pixel: just XOR the pixel. -/
theorem drawPixel_eq_neg (idx : Nat) (s : CHIP8) (h : ¬ s.Display idx % 256 = 1) :
    drawPixel idx s =
      { s with Display := upd s.Display idx (s.Display idx % 256 ^^^ 1) } := by
  rw [drawPixel, if_neg h]

/-- One code-side draw column step corresponds to one spec-side bit step. -/
theorem drawCol_spec (s0 t : CHIP8) (p : (Nat → Nat) × Bool)
    (x y row col sprite : Nat) (hx15 : x ≠ 15) (hy15 : y ≠ 15)
    (hcol : col < 8) (hsprite : sprite < 256) (hrel : DrawRel s0 t p) :
    DrawRel s0 (drawCol x y row sprite col t)
      (specDrawCol (v8 s0 x) (v8 s0 y) row sprite col p) := by
  have hvx : v8 t x = v8 s0 x := by rw [v8, v8, hrel.vother x hx15]
  have hvy : v8 t y = v8 s0 y := by rw [v8, v8, hrel.vother y hy15]
  have hidx : (v8 t y + row) % 256 % DisplayHeight * DisplayWidth +
      (v8 t x + col) % 256 % DisplayWidth =
      (v8 s0 y + row) % 32 * 64 + (v8 s0 x + col) % 64 := by
    simp only [DisplayWidth, DisplayHeight]
    rw [hvx, hvy, Nat.mod_mod_of_dvd _ (by norm_num),
      Nat.mod_mod_of_dvd _ (by norm_num)]
  rw [drawCol, specDrawCol]
  by_cases hbit : sprite.testBit (7 - col)
  · rw [if_pos ((bit_msb sprite hsprite col hcol).mpr hbit), if_pos hbit]
    rw [hidx]
    set idx := (v8 s0 y + row) % 32 * 64 + (v8 s0 x + col) % 64 with hidxdef
    have hplt : p.1 idx < 256 := by
      have := hrel.disp idx
      omega
    by_cases hpix : p.1 idx = 1
    · rw [drawPixel_eq_pos idx t (by rw [hrel.disp idx]; exact hpix)]
      refine ⟨?_, ?_, ?_, hrel.mem, hrel.iReg, hrel.pc, hrel.stack, hrel.sp,
        hrel.dt, hrel.sndt, hrel.keys, hrel.waiting, hrel.keyReg, hrel.drawFlag⟩
      · intro j
        by_cases hj : j = idx
        · rw [hj]
          show upd t.Display idx (t.Display idx % 256 ^^^ 1) idx % 256 =
            upd p.1 idx (p.1 idx ^^^ 1) idx
          rw [upd_self, upd_self, hrel.disp idx]
          exact Nat.mod_eq_of_lt (xor1_lt _ hplt)
        · show upd t.Display idx (t.Display idx % 256 ^^^ 1) j % 256 =
            upd p.1 idx (p.1 idx ^^^ 1) j
          rw [upd_ne _ _ _ _ hj, upd_ne _ _ _ _ hj]
          exact hrel.disp j
      · show upd t.V 15 1 15 % 256 = _
        rw [upd_self]
        simp [hpix]
      · intro i hi
        show upd t.V 15 1 i = s0.V i
        rw [upd_ne _ _ _ _ hi]
        exact hrel.vother i hi
    · rw [drawPixel_eq_neg idx t (by rw [hrel.disp idx]; exact hpix)]
      refine ⟨?_, ?_, hrel.vother, hrel.mem, hrel.iReg, hrel.pc, hrel.stack,
        hrel.sp, hrel.dt, hrel.sndt, hrel.keys, hrel.waiting, hrel.keyReg,
        hrel.drawFlag⟩
      · intro j
        by_cases hj : j = idx
        · rw [hj]
          show upd t.Display idx (t.Display idx % 256 ^^^ 1) idx % 256 =
            upd p.1 idx (p.1 idx ^^^ 1) idx
          rw [upd_self, upd_self, hrel.disp idx]
          exact Nat.mod_eq_of_lt (xor1_lt _ hplt)
        · show upd t.Display idx (t.Display idx % 256 ^^^ 1) j % 256 =
            upd p.1 idx (p.1 idx ^^^ 1) j
          rw [upd_ne _ _ _ _ hj, upd_ne _ _ _ _ hj]
          exact hrel.disp j
      · show v8 t 15 = _
        have hc : (p.2 || decide (p.1 idx = 1)) = p.2 := by simp [hpix]
        rw [hc]
        exact hrel.vf
  · rw [if_neg (fun hc => hbit ((bit_msb sprite hsprite col hcol).mp hc)),
      if_neg hbit]
    exact hrel

/-- One code-side draw row corresponds to one spec-side row. -/
theorem drawRow_spec (s0 : CHIP8) (x y row sprite : Nat) (hx15 : x ≠ 15)
    (hy15 : y ≠ 15) (hsprite : sprite < 256) :
    ∀ (cols : List Nat), (∀ c ∈ cols, c < 8) →
      ∀ (t : CHIP8) (p : (Nat → Nat) × Bool), DrawRel s0 t p →
      DrawRel s0 (drawRow x y row sprite cols t)
        (specDrawRowCols (v8 s0 x) (v8 s0 y) row sprite cols p) := by
  intro cols
  induction cols with
  | nil =>
    intro _ t p hrel
    exact hrel
  | cons c rest ih =>
    intro hcols t p hrel
    rw [drawRow, specDrawRowCols]
    exact ih (fun c hc => hcols c (List.mem_cons_of_mem _ hc)) _ _
      (drawCol_spec s0 t p x y row c sprite hx15 hy15
        (hcols c (List.mem_cons_self c rest)) hsprite hrel)

/-- The code-side draw loop refines the spec-side draw: starting from related
states it succeeds and lands in a related state. -/
theorem drawRows_spec (s0 : CHIP8) (x y : Nat) (hx15 : x ≠ 15) (hy15 : y ≠ 15) :
    ∀ (rows : List Nat), (∀ rw0 ∈ rows, i16 s0 + rw0 < 4096) →
      ∀ (t : CHIP8) (p : (Nat → Nat) × Bool), DrawRel s0 t p →
      ∃ t', drawRows x y rows t = some t' ∧
        DrawRel s0 t'
          (specDraw (v8 s0 x) (v8 s0 y) (i16 s0) (fun a => mem8 s0 a) rows p) := by
  intro rows
  induction rows with
  | nil =>
    intro _ t p hrel
    exact ⟨t, rfl, hrel⟩
  | cons rw0 rest ih =>
    intro hrows t p hrel
    have hlt : i16 s0 + rw0 < 4096 :=
      hrows rw0 (List.mem_cons_self rw0 rest)
    have hi16t : i16 t = i16 s0 := by rw [i16, i16, hrel.iReg]
    have haddr : (i16 t + rw0) % 65536 = i16 s0 + rw0 := by
      rw [hi16t]
      omega
    have hm : memRead t ((i16 t + rw0) % 65536) = some (mem8 s0 (i16 s0 + rw0)) := by
      rw [memRead, haddr,
        if_pos (show i16 s0 + rw0 < MemorySize by simp only [MemorySize]; omega)]
      rw [mem8, mem8, hrel.mem]
    rw [drawRows]
    rw [hm]
    rw [specDraw]
    have hsprite : mem8 s0 (i16 s0 + rw0) < 256 := Nat.mod_lt _ (by omega)
    have hrel1 := drawRow_spec s0 x y rw0 (mem8 s0 (i16 s0 + rw0)) hx15 hy15
      hsprite (List.range 8) (fun c hc => List.mem_range.mp hc) t p hrel
    exact ih (fun r hr => hrows r (List.mem_cons_of_mem _ hr)) _ _ hrel1

/-- C4 amended: for every draw DXYN whose coordinate registers are not VF
(x ≠ F and y ≠ F) and whose sprite bytes are in bounds, the step succeeds and
behaves exactly as the spec words it with the pre-instruction Vx, Vy: each of
the n bytes at memory[I..I+n-1] is scanned MSB-first, the target pixel is
((Vx+col) mod 64, (Vy+row) mod 32) — wrapped, never clipped — set bits XOR
the target pixel, VF ends 1 iff some XOR turned a 1 pixel to 0 during the
whole sprite, the redraw flag is set unconditionally, and nothing else
changes.  (For x = F or y = F the code reads the coordinate registers live
after clearing VF, so the claim as stated fails — see the counterexample.) -/
theorem c4_draw_characterization :
    ∀ (r x y n : Nat) (s : CHIP8), x < 16 → y < 16 → n < 16 → x ≠ 15 → y ≠ 15 →
      i16 s + n ≤ 4096 →
      ∃ t, executeOpcode r (0xD000 + x * 256 + y * 16 + n) s = .ok t ∧
        (∀ j, t.Display j % 256 =
          (specDraw (v8 s x) (v8 s y) (i16 s) (fun a => mem8 s a) (List.range n)
            (fun j => s.Display j % 256, false)).1 j) ∧
        (v8 t 15 = if (specDraw (v8 s x) (v8 s y) (i16 s) (fun a => mem8 s a)
            (List.range n) (fun j => s.Display j % 256, false)).2 then 1 else 0) ∧
        t.DrawFlag = true ∧
        (∀ i, i ≠ 15 → t.V i = s.V i) ∧
        t.Memory = s.Memory ∧ t.I = s.I ∧ t.PC = s.PC ∧ t.Stack = s.Stack ∧
        t.SP = s.SP ∧ t.DelayTimer = s.DelayTimer ∧ t.SoundTimer = s.SoundTimer ∧
        t.Keys = s.Keys ∧ t.WaitingForKey = s.WaitingForKey ∧
        t.KeyRegister = s.KeyRegister := by
  intro r x y n s hx hy hn hx15 hy15 hbound
  have hg : (0xD000 + x * 256 + y * 16 + n) / 4096 % 16 = 13 := by omega
  have hx' : (0xD000 + x * 256 + y * 16 + n) / 256 % 16 = x := by omega
  have hy' : (0xD000 + x * 256 + y * 16 + n) / 16 % 16 = y := by omega
  have hn' : (0xD000 + x * 256 + y * 16 + n) % 16 = n := by omega
  rw [executeOpcode]
  simp only [hg, hx', hy', hn']
  norm_num
  have hrel0 : DrawRel s { s with V := upd s.V 15 0 }
      (fun j => s.Display j % 256, false) := by
    refine ⟨fun j => rfl, ?_, ?_, rfl, rfl, rfl, rfl, rfl, rfl, rfl, rfl, rfl,
      rfl, rfl⟩
    · show upd s.V 15 0 15 % 256 = 0
      rw [upd_self]
    · intro i hi
      show upd s.V 15 0 i = s.V i
      rw [upd_ne _ _ _ _ hi]
  have hrows : ∀ rw0 ∈ List.range n, i16 s + rw0 < 4096 := by
    intro rw0 hr
    have := List.mem_range.mp hr
    omega
  rcases drawRows_spec s x y hx15 hy15 (List.range n) hrows _ _ hrel0 with
    ⟨t', hsome, hrel'⟩
  rw [hsome]
  refine ⟨{ t' with DrawFlag := true }, rfl, ?_, ?_, rfl, ?_, hrel'.mem,
    hrel'.iReg, hrel'.pc, hrel'.stack, hrel'.sp, hrel'.dt, hrel'.sndt,
    hrel'.keys, hrel'.waiting, hrel'.keyReg⟩
  · exact hrel'.disp
  · exact hrel'.vf
  · exact hrel'.vother

/-- A machine with V[F] = 8 and a one-byte sprite 0x80 at address 100. -/
def drawEdge : CHIP8 :=
  { New with V := upd New.V 15 8, I := 100, Memory := upd New.Memory 100 0x80 }

/-- C4 counterexample: executing DF01 (x = F) on `drawEdge`.  The claim as
stated predicts the single set bit lands at ((V[F]+0) mod 64, (V[0]+0) mod 32)
= pixel 8 (the spec-side draw below computes exactly that); but the code
clears VF before reading V[x], so it flips pixel 0 and leaves pixel 8 blank. -/
theorem c4_counterexample :
    (executeOpcode 0 0xDF01 drawEdge).dispOf 8 = some 0 ∧
    (executeOpcode 0 0xDF01 drawEdge).dispOf 0 = some 1 ∧
    (specDraw (v8 drawEdge 15) (v8 drawEdge 0) (i16 drawEdge)
      (fun a => mem8 drawEdge a) (List.range 1)
      (fun j => drawEdge.Display j % 256, false)).1 8 = 1 ∧
    (specDraw (v8 drawEdge 15) (v8 drawEdge 0) (i16 drawEdge)
      (fun a => mem8 drawEdge a) (List.range 1)
      (fun j => drawEdge.Display j % 256, false)).1 0 = 0 := by
  exact ⟨by decide, by decide, by decide, by decide⟩

/-- C4 witness: `c4_draw_characterization` on a fresh machine drawing the
glyph sprite at I = 0 with D011. -/
theorem c4_draw_characterization_witness :
    ∃ t, executeOpcode 0 (0xD000 + 0 * 256 + 1 * 16 + 1) New = .ok t ∧
      (∀ j, t.Display j % 256 =
        (specDraw (v8 New 0) (v8 New 1) (i16 New) (fun a => mem8 New a)
          (List.range 1) (fun j => New.Display j % 256, false)).1 j) ∧
      (v8 t 15 = if (specDraw (v8 New 0) (v8 New 1) (i16 New)
          (fun a => mem8 New a) (List.range 1)
          (fun j => New.Display j % 256, false)).2 then 1 else 0) ∧
      t.DrawFlag = true ∧
      (∀ i, i ≠ 15 → t.V i = New.V i) ∧
      t.Memory = New.Memory ∧ t.I = New.I ∧ t.PC = New.PC ∧ t.Stack = New.Stack ∧
      t.SP = New.SP ∧ t.DelayTimer = New.DelayTimer ∧
      t.SoundTimer = New.SoundTimer ∧ t.Keys = New.Keys ∧
      t.WaitingForKey = New.WaitingForKey ∧ t.KeyRegister = New.KeyRegister :=
  c4_draw_characterization 0 0 1 1 New (by decide) (by decide) (by decide)
    (by decide) (by decide) (by decide)

end Chip8
